import Mathlib

/-!
Shallow embedding of the TrustEscrow contracts
(`packages/hardhat/contracts/TrustEscrow.sol` and the factory contract
`TrustEscrowFactory`) into Lean 4, together with theorems settling the
specification claims.

Addresses are modelled as `Nat` with `0` playing the role of the null
address.  Ether values and balances are `Nat` (uint256 overflow is
irrelevant at the sizes involved: the contract never adds user-controlled
values to prior state other than the balance, and the EVM enforces that a
message's value fits in the sender's balance; we keep plain `Nat`).

Each external call is one atomic step: it either returns an updated state
together with the events emitted and the outgoing value transfers
performed, or it reverts with an error and the state is unchanged
(revert-atomicity is supplied by the EVM, per the spec's environment
assumptions).  The OpenZeppelin mixins are embedded by their observable
behaviour: `Ownable` as the `owner` field with `OwnableUnauthorizedAccount`
/ `OwnableInvalidOwner` errors, `Pausable` as the `pausedFlag` field with
`EnforcedPause` / `ExpectedPause` errors.  `ReentrancyGuard` has no
observable effect in the serialized one-call-at-a-time model and is not
represented.  The low-level `call{value: v}` is modelled by `sendValue`,
whose `tok` parameter stands for the recipient accepting the transfer; a
transfer of more than the contract balance always fails, as in the EVM.
-/

namespace TrustEscrow

/-- Error vocabulary of the two contracts plus the OpenZeppelin mixins.
`transferFailed` models the `require(success, ...)` string reverts. -/
inductive Err where
  | invalidAddress
  | onlyDepositor
  | onlyArbiter
  | alreadyFunded
  | notFunded
  | alreadyReleased
  | invalidAmount
  | onlyDepositorCanSendETH
  | enforcedPause
  | expectedPause
  | ownableUnauthorizedAccount
  | ownableInvalidOwner
  | transferFailed
  | arraysLengthMismatch
  | emptyArrays
  | tooManyEscrows
  | escrowDoesNotExist
deriving DecidableEq

/-- Events emitted by the escrow contract. -/
inductive Event where
  | escrowCreated (depositor beneficiary arbiter : Nat)
  | deposited (depositor amount : Nat)
  | released (beneficiary amount : Nat)
  | refunded (depositor amount : Nat)
  | pausedEv (account : Nat)
  | unpausedEv (account : Nat)
deriving DecidableEq

/-- Storage of one `TrustEscrow` instance, plus its ether balance.
`owner` is the `Ownable` owner (set to the depositor by the constructor),
`pausedFlag` is the `Pausable` `_paused` flag. -/
structure Escrow where
  depositor : Nat
  beneficiary : Nat
  arbiter : Nat
  amount : Nat
  isFunded : Bool
  isReleased : Bool
  isRefunded : Bool
  pausedFlag : Bool
  owner : Nat
  balance : Nat
deriving DecidableEq

/-- The `TrustEscrow` constructor.  The `Ownable(_depositor)` base
constructor runs first and rejects a zero initial owner with
`OwnableInvalidOwner`; the body then performs the six `InvalidAddress`
checks (its own `_depositor == 0` check is therefore unreachable, as in
the source).  Returns the initial storage and the emitted events. -/
def mkEscrow (d b a : Nat) : Except Err (Escrow × List Event) :=
  if d = 0 then .error .ownableInvalidOwner
  else if d = 0 then .error .invalidAddress
  else if b = 0 then .error .invalidAddress
  else if a = 0 then .error .invalidAddress
  else if b = a then .error .invalidAddress
  else if d = b then .error .invalidAddress
  else if d = a then .error .invalidAddress
  else .ok ({ depositor := d, beneficiary := b, arbiter := a, amount := 0,
              isFunded := false, isReleased := false, isRefunded := false,
              pausedFlag := false, owner := d, balance := 0 },
            [.escrowCreated d b a])

/-- Result of one successful external call: the new storage, the events
emitted, and the outgoing value transfers `(recipient, value)` performed. -/
structure StepOut where
  state : Escrow
  events : List Event
  transfers : List (Nat × Nat)
deriving DecidableEq

/-- The low-level `(bool success, ) = recipient.call{value: v}("")`
followed by `require(success, ...)`: it succeeds only if the recipient
accepts (`tok`) and the contract balance covers `v`; on success the
balance decreases by `v` and the transfer is recorded. -/
def sendValue (s : Escrow) (recipient v : Nat) (tok : Bool) :
    Except Err (Escrow × List (Nat × Nat)) :=
  if tok = true ∧ v ≤ s.balance then
    .ok ({ s with balance := s.balance - v }, [(recipient, v)])
  else .error .transferFailed

/-- State of `release()` at the moment the value transfer is attempted:
the `isReleased` flag has already been set. -/
def stagedRelease (s : Escrow) : Escrow := { s with isReleased := true }

/-- State of `refund()` at the moment the value transfer is attempted:
the `isRefunded` flag has already been set. -/
def stagedRefund (s : Escrow) : Escrow := { s with isRefunded := true }

/-- The external calls of `TrustEscrow`.  `sender` is `msg.sender`,
`value` is `msg.value`, `tok` models whether the recipient of an outgoing
transfer accepts it. -/
inductive Op where
  | deposit (sender value : Nat)
  | release (sender : Nat) (tok : Bool)
  | refund (sender : Nat) (tok : Bool)
  | pause (sender : Nat)
  | unpause (sender : Nat)
  | emergencyWithdraw (sender : Nat) (tok : Bool)
  | receiveEth (sender value : Nat)
deriving DecidableEq

/-- One external call against a `TrustEscrow` instance.  Guards appear in
the source's modifier order (modifiers run left to right, before the
body).  A `.error` result models a revert: no state change at all. -/
def step (s : Escrow) : Op → Except Err StepOut
  | .deposit sender v =>
      if sender ≠ s.depositor then .error .onlyDepositor
      else if s.isFunded = true then .error .alreadyFunded
      else if s.pausedFlag = true then .error .enforcedPause
      else if v = 0 then .error .invalidAmount
      else .ok ⟨{ s with amount := v, isFunded := true, balance := s.balance + v },
                [.deposited s.depositor v], []⟩
  | .release sender tok =>
      if sender ≠ s.arbiter then .error .onlyArbiter
      else if s.isFunded = false then .error .notFunded
      else if s.isReleased = true ∨ s.isRefunded = true then .error .alreadyReleased
      else if s.pausedFlag = true then .error .enforcedPause
      else
        (sendValue (stagedRelease s) s.beneficiary s.amount tok).map
          (fun p => ⟨p.1, [.released s.beneficiary s.amount], p.2⟩)
  | .refund sender tok =>
      if sender ≠ s.arbiter then .error .onlyArbiter
      else if s.isFunded = false then .error .notFunded
      else if s.isReleased = true ∨ s.isRefunded = true then .error .alreadyReleased
      else if s.pausedFlag = true then .error .enforcedPause
      else
        (sendValue (stagedRefund s) s.depositor s.amount tok).map
          (fun p => ⟨p.1, [.refunded s.depositor s.amount], p.2⟩)
  | .pause sender =>
      if sender ≠ s.owner then .error .ownableUnauthorizedAccount
      else if s.pausedFlag = true then .error .enforcedPause
      else .ok ⟨{ s with pausedFlag := true }, [.pausedEv sender], []⟩
  | .unpause sender =>
      if sender ≠ s.owner then .error .ownableUnauthorizedAccount
      else if s.pausedFlag = false then .error .expectedPause
      else .ok ⟨{ s with pausedFlag := false }, [.unpausedEv sender], []⟩
  | .emergencyWithdraw sender tok =>
      if sender ≠ s.owner then .error .ownableUnauthorizedAccount
      else if s.pausedFlag = false then .error .expectedPause
      else if s.balance = 0 then .ok ⟨s, [], []⟩
      else (sendValue s s.owner s.balance tok).map (fun p => ⟨p.1, [], p.2⟩)
  | .receiveEth sender v =>
      if sender ≠ s.depositor then .error .onlyDepositorCanSendETH
      else if s.isFunded = true then
        .ok ⟨{ s with balance := s.balance + v }, [], []⟩
      else
        .ok ⟨{ s with balance := s.balance + v, amount := v, isFunded := true },
             [.deposited s.depositor v], []⟩

/-- State after one external call: the new state on success, the old
state on revert. -/
def exec (s : Escrow) (op : Op) : Escrow :=
  match step s op with
  | .ok out => out.state
  | .error _ => s

/-- State after a sequence of external calls. -/
def run (s : Escrow) (ops : List Op) : Escrow := ops.foldl exec s

/-- Reachable escrow states: a constructed instance, closed under
arbitrary external calls (reverting calls leave the state unchanged). -/
inductive Reach : Escrow → Prop where
  | init (d b a : Nat) (s : Escrow) (evs : List Event) :
      mkEscrow d b a = .ok (s, evs) → Reach s
  | next (s : Escrow) (op : Op) : Reach s → Reach (exec s op)

/-! ## The factory contract `TrustEscrowFactory` -/

/-- Metadata struct `EscrowInfo` of the factory (field `exists` renamed
`exists_`, a keyword in Lean). -/
structure EscrowInfo where
  depositor : Nat
  beneficiary : Nat
  arbiter : Nat
  createdAt : Nat
  exists_ : Bool
deriving DecidableEq

/-- Storage of the `TrustEscrowFactory`.  The two mappings are total
functions with the EVM's all-zero default.  `nextAddr` models the fresh
address supply of contract creation (the EVM guarantees every `new`
contract lands at an address distinct from all existing ones); `log` is a
ghost history variable recording `(creator, escrow address)` for each
creation, one entry per created agreement — it influences no behaviour
and only serves to state registry properties. -/
structure Factory where
  owner : Nat
  pausedFlag : Bool
  escrows : List Nat
  userEscrows : Nat → List Nat
  escrowInfo : Nat → EscrowInfo
  nextAddr : Nat
  log : List (Nat × Nat)

/-- The factory constructor: `Ownable(msg.sender)`, registry empty. -/
def mkFactory (sender : Nat) : Factory :=
  { owner := sender, pausedFlag := false, escrows := [],
    userEscrows := fun _ => [], escrowInfo := fun _ => ⟨0, 0, 0, 0, false⟩,
    nextAddr := 1, log := [] }

/-- The internal `createEscrow`: the five `InvalidAddress` checks, then
`new TrustEscrow(msg.sender, _beneficiary, _arbiter)` (whose constructor
reverts propagate), then the three registry writes and the log entry.
Returns the updated factory and the new agreement's address. -/
def createEscrow (f : Factory) (sender b a t : Nat) :
    Except Err (Factory × Nat) :=
  if b = 0 then .error .invalidAddress
  else if a = 0 then .error .invalidAddress
  else if b = a then .error .invalidAddress
  else if b = sender then .error .invalidAddress
  else if a = sender then .error .invalidAddress
  else
    match mkEscrow sender b a with
    | .error e => .error e
    | .ok _ =>
        let addr := f.nextAddr
        .ok ({ f with
                escrows := f.escrows ++ [addr],
                userEscrows := fun u =>
                  if u = sender then f.userEscrows u ++ [addr] else f.userEscrows u,
                escrowInfo := fun x =>
                  if x = addr then ⟨sender, b, a, t, true⟩ else f.escrowInfo x,
                nextAddr := f.nextAddr + 1,
                log := f.log ++ [(sender, addr)] }, addr)

/-- The external `createEscrowExternal` (modifier `whenNotPaused`). -/
def createEscrowExternal (f : Factory) (sender b a t : Nat) :
    Except Err (Factory × Nat) :=
  if f.pausedFlag = true then .error .enforcedPause
  else createEscrow f sender b a t

/-- The loop body of `createMultipleEscrows`: each pair goes through the
single-creation path; the first revert aborts the whole call. -/
def createEscrowLoop (f : Factory) (sender : Nat) (t : Nat) :
    List (Nat × Nat) → List Nat → Except Err (Factory × List Nat)
  | [], acc => .ok (f, acc)
  | (b, a) :: rest, acc =>
      match createEscrow f sender b a t with
      | .error e => .error e
      | .ok (f1, addr) => createEscrowLoop f1 sender t rest (acc ++ [addr])

/-- The external `createMultipleEscrows` (modifier `whenNotPaused`, then
the three array-shape checks, then the loop). -/
def createMultipleEscrows (f : Factory) (sender : Nat)
    (bens arbs : List Nat) (t : Nat) : Except Err (Factory × List Nat) :=
  if f.pausedFlag = true then .error .enforcedPause
  else if bens.length ≠ arbs.length then .error .arraysLengthMismatch
  else if bens.length = 0 then .error .emptyArrays
  else if bens.length > 10 then .error .tooManyEscrows
  else createEscrowLoop f sender t (bens.zip arbs) []

/-- `getEscrowInfo`: reverts with `EscrowDoesNotExist` when the metadata
entry has `exists = false`. -/
def getEscrowInfo (f : Factory) (addr : Nat) : Except Err EscrowInfo :=
  if (f.escrowInfo addr).exists_ = false then .error .escrowDoesNotExist
  else .ok (f.escrowInfo addr)

/-- `isValidEscrow`: the raw existence bit, never reverts. -/
def isValidEscrow (f : Factory) (addr : Nat) : Bool :=
  (f.escrowInfo addr).exists_

/-- `getEscrowCount`. -/
def getEscrowCount (f : Factory) : Nat := f.escrows.length

/-- `getUserEscrows`. -/
def getUserEscrows (f : Factory) (u : Nat) : List Nat := f.userEscrows u

/-- `getAllEscrows`. -/
def getAllEscrows (f : Factory) : List Nat := f.escrows

/-- The state-mutating external calls of the factory. -/
inductive FOp where
  | create (sender b a t : Nat)
  | createMany (sender : Nat) (bens arbs : List Nat) (t : Nat)
  | fpause (sender : Nat)
  | funpause (sender : Nat)

/-- One external call against the factory. -/
def stepF (f : Factory) : FOp → Except Err Factory
  | .create sender b a t => (createEscrowExternal f sender b a t).map Prod.fst
  | .createMany sender bens arbs t =>
      (createMultipleEscrows f sender bens arbs t).map Prod.fst
  | .fpause sender =>
      if sender ≠ f.owner then .error .ownableUnauthorizedAccount
      else if f.pausedFlag = true then .error .enforcedPause
      else .ok { f with pausedFlag := true }
  | .funpause sender =>
      if sender ≠ f.owner then .error .ownableUnauthorizedAccount
      else if f.pausedFlag = false then .error .expectedPause
      else .ok { f with pausedFlag := false }

/-- Factory state after one external call (reverts leave it unchanged). -/
def execF (f : Factory) (op : FOp) : Factory :=
  match stepF f op with
  | .ok f1 => f1
  | .error _ => f

/-- Reachable factory states. -/
inductive FReach : Factory → Prop where
  | init (sender : Nat) : FReach (mkFactory sender)
  | next (f : Factory) (op : FOp) : FReach f → FReach (execF f op)

/-! ## Concrete states used by witnesses and counterexamples -/

/-- The escrow created by `mkEscrow 1 2 3`. -/
def esc0 : Escrow :=
  ⟨1, 2, 3, 0, false, false, false, false, 1, 0⟩

/-- `esc0` after `deposit` of 5 wei by the depositor. -/
def escFunded : Escrow := exec esc0 (.deposit 1 5)

/-- `escFunded` after a successful `release()` by the arbiter. -/
def escReleased : Escrow := exec escFunded (.release 3 true)

/-- `esc0` paused by its owner (= depositor). -/
def escPaused : Escrow := exec esc0 (.pause 1)

/-- `escFunded` paused by its owner (= depositor). -/
def escFundedPaused : Escrow := exec escFunded (.pause 1)

/-- A factory, deployed by address 1, that its owner has paused. -/
def fPaused : Factory := execF (mkFactory 1) (.fpause 1)

/-- A factory with one agreement, created by address 4 for beneficiary 5
and arbiter 6 at time 0; the new agreement's address is 1, the first
fresh address. -/
def fOne : Factory := execF (mkFactory 9) (.create 4 5 6 0)

/-- The state invariant maintained by every reachable escrow state:
the two terminal flags are mutually exclusive, a terminal agreement is
funded, the `Ownable` owner is the depositor, and the three roles are
pairwise distinct and non-null. -/
def Inv (s : Escrow) : Prop :=
  ¬(s.isReleased = true ∧ s.isRefunded = true) ∧
  ((s.isReleased = true ∨ s.isRefunded = true) → s.isFunded = true) ∧
  s.owner = s.depositor ∧
  s.depositor ≠ 0 ∧ s.beneficiary ≠ 0 ∧ s.arbiter ≠ 0 ∧
  s.depositor ≠ s.beneficiary ∧ s.depositor ≠ s.arbiter ∧
  s.beneficiary ≠ s.arbiter

/-- The registry invariant maintained by every reachable factory state:
metadata existence coincides with membership in the global sequence, the
per-creator index is consistent with it, all registered addresses are
below the fresh-address supply, and the global sequence and per-creator
index are exactly the projections of the creation history. -/
def FInv (f : Factory) : Prop :=
  (∀ addr, (f.escrowInfo addr).exists_ = true ↔ addr ∈ f.escrows) ∧
  (∀ addr, addr ∈ f.escrows → addr < f.nextAddr) ∧
  f.escrows = f.log.map Prod.snd ∧
  (∀ u, f.userEscrows u =
    (f.log.filter (fun p => p.1 == u)).map Prod.snd)

/-! ## Basic lemmas about the escrow state machine -/

theorem exec_of_ok {s : Escrow} {op : Op} {out : StepOut}
    (h : step s op = .ok out) : exec s op = out.state := by
  unfold exec; rw [h]

theorem exec_of_error {s : Escrow} {op : Op} {e : Err}
    (h : step s op = .error e) : exec s op = s := by
  unfold exec; rw [h]

/-- The three role identities and the owner are immutable: no external
call changes them. -/
theorem exec_roles (s : Escrow) (op : Op) :
    (exec s op).depositor = s.depositor ∧
    (exec s op).beneficiary = s.beneficiary ∧
    (exec s op).arbiter = s.arbiter ∧
    (exec s op).owner = s.owner := by
  cases h : step s op with
  | error e => simp [exec_of_error h]
  | ok out =>
    rw [exec_of_ok h]
    cases op <;>
      simp only [step, sendValue, stagedRelease, stagedRefund] at h <;>
      (repeat' split at h) <;>
      (try simp only [Except.map] at h) <;>
      (try injection h with h) <;>
      (try subst h) <;> simp_all

/-- Once funded, always funded. -/
theorem exec_funded_mono (s : Escrow) (op : Op) (h : s.isFunded = true) :
    (exec s op).isFunded = true := by
  cases hs : step s op with
  | error e => simp [exec_of_error hs, h]
  | ok out =>
    rw [exec_of_ok hs]
    cases op <;>
      simp only [step, sendValue, stagedRelease, stagedRefund] at hs <;>
      (repeat' split at hs) <;>
      (try simp only [Except.map] at hs) <;>
      (try injection hs with hs) <;>
      (try subst hs) <;> simp_all

theorem inv_init {d b a : Nat} {s : Escrow} {evs : List Event}
    (h : mkEscrow d b a = .ok (s, evs)) : Inv s := by
  unfold mkEscrow at h
  repeat' split at h
  all_goals simp_all [Inv]
  all_goals
    obtain ⟨rfl, rfl⟩ := h
    simp_all

theorem inv_exec (s : Escrow) (op : Op) (h : Inv s) : Inv (exec s op) := by
  cases hs : step s op with
  | error e => rw [exec_of_error hs]; exact h
  | ok out =>
    rw [exec_of_ok hs]
    obtain ⟨h1, h2, h3, h4⟩ := h
    cases op <;>
      simp only [step, sendValue, stagedRelease, stagedRefund] at hs <;>
      (repeat' split at hs) <;>
      (try simp only [Except.map] at hs) <;>
      (try injection hs with hs) <;>
      (try subst hs) <;> simp_all [Inv]

theorem reach_inv {s : Escrow} (h : Reach s) : Inv s := by
  induction h with
  | init d b a s evs he => exact inv_init he
  | next s op _ ih => exact inv_exec s op ih

/-- Full characterization of a successful `release()`. -/
theorem release_ok_out (s : Escrow) (sender : Nat) (tok : Bool)
    (out : StepOut) (hs : step s (.release sender tok) = .ok out) :
    sender = s.arbiter ∧ s.isFunded = true ∧ s.isReleased = false ∧
    s.isRefunded = false ∧ s.pausedFlag = false ∧ tok = true ∧
    s.amount ≤ s.balance ∧
    out = ⟨{ s with isReleased := true, balance := s.balance - s.amount },
           [.released s.beneficiary s.amount],
           [(s.beneficiary, s.amount)]⟩ := by
  simp only [step, sendValue, stagedRelease] at hs
  (repeat' split at hs) <;>
    (try simp only [Except.map] at hs) <;>
    (try injection hs with hs) <;>
    (try subst hs) <;> simp_all

/-- Full characterization of a successful `refund()`. -/
theorem refund_ok_out (s : Escrow) (sender : Nat) (tok : Bool)
    (out : StepOut) (hs : step s (.refund sender tok) = .ok out) :
    sender = s.arbiter ∧ s.isFunded = true ∧ s.isReleased = false ∧
    s.isRefunded = false ∧ s.pausedFlag = false ∧ tok = true ∧
    s.amount ≤ s.balance ∧
    out = ⟨{ s with isRefunded := true, balance := s.balance - s.amount },
           [.refunded s.depositor s.amount],
           [(s.depositor, s.amount)]⟩ := by
  simp only [step, sendValue, stagedRefund] at hs
  (repeat' split at hs) <;>
    (try simp only [Except.map] at hs) <;>
    (try injection hs with hs) <;>
    (try subst hs) <;> simp_all

/-- In a terminal state an arbiter call to `release()` reverts with
`AlreadyReleased`. -/
theorem release_terminal_err (s : Escrow) (tok : Bool)
    (hf : s.isFunded = true)
    (ht : s.isReleased = true ∨ s.isRefunded = true) :
    step s (.release s.arbiter tok) = .error .alreadyReleased := by
  simp [step, hf, ht]

/-- In a terminal state an arbiter call to `refund()` reverts with
`AlreadyReleased`. -/
theorem refund_terminal_err (s : Escrow) (tok : Bool)
    (hf : s.isFunded = true)
    (ht : s.isReleased = true ∨ s.isRefunded = true) :
    step s (.refund s.arbiter tok) = .error .alreadyReleased := by
  simp [step, hf, ht]

/-- In a terminal, funded state no external call changes `amount`. -/
theorem exec_amount_terminal (s : Escrow) (op : Op)
    (hf : s.isFunded = true)
    (ht : s.isReleased = true ∨ s.isRefunded = true) :
    (exec s op).amount = s.amount := by
  cases hs : step s op with
  | error e => simp [exec_of_error hs]
  | ok out =>
    rw [exec_of_ok hs]
    cases op <;>
      simp only [step, sendValue, stagedRelease, stagedRefund] at hs <;>
      (repeat' split at hs) <;>
      (try simp only [Except.map] at hs) <;>
      (try injection hs with hs) <;>
      (try subst hs) <;> simp_all

theorem reach_esc0 : Reach esc0 :=
  Reach.init 1 2 3 esc0 [.escrowCreated 1 2 3] rfl

theorem reach_escFunded : Reach escFunded :=
  Reach.next esc0 (.deposit 1 5) reach_esc0

theorem reach_escReleased : Reach escReleased :=
  Reach.next escFunded (.release 3 true) reach_escFunded

theorem reach_escPaused : Reach escPaused :=
  Reach.next esc0 (.pause 1) reach_esc0

/-- Eta rule used to restate `unpause` of a freshly paused state. -/
theorem set_paused_false_eta (s : Escrow) (h : s.pausedFlag = false) :
    { s with pausedFlag := false } = s := by
  cases s; simp_all

/-! ## Claim theorems -/

/-- C1: in every reachable escrow state, `isReleased` and `isRefunded`
are never both true; once either holds, the agreement is terminal: the
arbiter's calls to `release()`/`refund()` fail with `AlreadyReleased`
(calls by anyone else also never succeed), and no external call can
change `amount`.  The one successful resolution performs exactly one
value transfer of `amount` — to the beneficiary for `release`, to the
depositor for `refund`. -/
theorem C1_resolution_single_shot (s : Escrow) (h : Reach s) :
    ¬(s.isReleased = true ∧ s.isRefunded = true) ∧
    ((s.isReleased = true ∨ s.isRefunded = true) →
      (∀ tok, step s (.release s.arbiter tok) = .error .alreadyReleased) ∧
      (∀ tok, step s (.refund s.arbiter tok) = .error .alreadyReleased) ∧
      (∀ sender tok out, step s (.release sender tok) ≠ .ok out) ∧
      (∀ sender tok out, step s (.refund sender tok) ≠ .ok out) ∧
      (∀ op, (exec s op).amount = s.amount)) ∧
    (∀ sender tok out, step s (.release sender tok) = .ok out →
      out.state.isReleased = true ∧
      out.transfers = [(s.beneficiary, s.amount)]) ∧
    (∀ sender tok out, step s (.refund sender tok) = .ok out →
      out.state.isRefunded = true ∧
      out.transfers = [(s.depositor, s.amount)]) := by
  obtain ⟨h1, h2, -⟩ := reach_inv h
  refine ⟨h1, ?_, ?_, ?_⟩
  · intro ht
    have hf := h2 ht
    refine ⟨fun tok => release_terminal_err s tok hf ht,
            fun tok => refund_terminal_err s tok hf ht, ?_, ?_,
            fun op => exec_amount_terminal s op hf ht⟩
    · intro sender tok out hok
      obtain ⟨-, -, hr1, hr2, -⟩ := release_ok_out s sender tok out hok
      rcases ht with ht | ht
      · rw [hr1] at ht; exact Bool.false_ne_true ht
      · rw [hr2] at ht; exact Bool.false_ne_true ht
    · intro sender tok out hok
      obtain ⟨-, -, hr1, hr2, -⟩ := refund_ok_out s sender tok out hok
      rcases ht with ht | ht
      · rw [hr1] at ht; exact Bool.false_ne_true ht
      · rw [hr2] at ht; exact Bool.false_ne_true ht
  · intro sender tok out hok
    obtain ⟨-, -, -, -, -, -, -, hout⟩ := release_ok_out s sender tok out hok
    subst hout; exact ⟨rfl, rfl⟩
  · intro sender tok out hok
    obtain ⟨-, -, -, -, -, -, -, hout⟩ := refund_ok_out s sender tok out hok
    subst hout; exact ⟨rfl, rfl⟩

/-- Witness for C1 at the concrete reachable terminal state
`escReleased` (escrow (1,2,3), funded with 5, then released): the state
is terminal, both resolution calls by the arbiter now fail with
`AlreadyReleased`, and `amount` is frozen at 5. -/
theorem C1_resolution_single_shot_witness :
    escReleased.isReleased = true ∧ escReleased.isRefunded = false ∧
    step escReleased (.release 3 true) = .error .alreadyReleased ∧
    step escReleased (.refund 3 true) = .error .alreadyReleased ∧
    exec escReleased (.deposit 1 7) = escReleased := by
  have h := C1_resolution_single_shot escReleased reach_escReleased
  have ht := (h.2.1 (by decide)).1
  have ht2 := (h.2.1 (by decide)).2.1
  exact ⟨by decide, by decide, ht true, ht2 true, by decide⟩

/-- C2: when the guards of `release()` (resp. `refund()`) pass, the call
is exactly the value transfer attempted from the staged state in which
the terminal flag is already set — i.e. the flag mutation strictly
precedes the transfer — and if the transfer fails the whole call reverts
with no state change at all, rolling back the just-set flag. -/
theorem C2_flag_before_transfer (s : Escrow) (sender : Nat)
    (ha : sender = s.arbiter) (hf : s.isFunded = true)
    (hr : s.isReleased = false) (hrf : s.isRefunded = false)
    (hp : s.pausedFlag = false) :
    (∀ tok, step s (.release sender tok) =
      (sendValue (stagedRelease s) s.beneficiary s.amount tok).map
        (fun p => ⟨p.1, [.released s.beneficiary s.amount], p.2⟩)) ∧
    (stagedRelease s).isReleased = true ∧
    (∀ tok,
      sendValue (stagedRelease s) s.beneficiary s.amount tok =
        .error .transferFailed →
      step s (.release sender tok) = .error .transferFailed ∧
      exec s (.release sender tok) = s) ∧
    (∀ tok, step s (.refund sender tok) =
      (sendValue (stagedRefund s) s.depositor s.amount tok).map
        (fun p => ⟨p.1, [.refunded s.depositor s.amount], p.2⟩)) ∧
    (stagedRefund s).isRefunded = true ∧
    (∀ tok,
      sendValue (stagedRefund s) s.depositor s.amount tok =
        .error .transferFailed →
      step s (.refund sender tok) = .error .transferFailed ∧
      exec s (.refund sender tok) = s) := by
  have hrel : ∀ tok, step s (.release sender tok) =
      (sendValue (stagedRelease s) s.beneficiary s.amount tok).map
        (fun p => ⟨p.1, [.released s.beneficiary s.amount], p.2⟩) := by
    intro tok; simp [step, ha, hf, hr, hrf, hp]
  have href : ∀ tok, step s (.refund sender tok) =
      (sendValue (stagedRefund s) s.depositor s.amount tok).map
        (fun p => ⟨p.1, [.refunded s.depositor s.amount], p.2⟩) := by
    intro tok; simp [step, ha, hf, hr, hrf, hp]
  refine ⟨hrel, rfl, ?_, href, rfl, ?_⟩
  · intro tok herr
    have hstep : step s (.release sender tok) = .error .transferFailed := by
      rw [hrel tok, herr]; rfl
    exact ⟨hstep, exec_of_error hstep⟩
  · intro tok herr
    have hstep : step s (.refund sender tok) = .error .transferFailed := by
      rw [href tok, herr]; rfl
    exact ⟨hstep, exec_of_error hstep⟩

/-- Witness for C2 at the concrete funded state `escFunded`: a failing
transfer makes `release()` revert with `TransferFailed` and leaves the
state — including the `isReleased` flag — unchanged, while the staged
state the transfer was attempted from had the flag set. -/
theorem C2_flag_before_transfer_witness :
    step escFunded (.release 3 false) = .error .transferFailed ∧
    exec escFunded (.release 3 false) = escFunded ∧
    (stagedRelease escFunded).isReleased = true ∧
    step escFunded (.refund 3 false) = .error .transferFailed ∧
    exec escFunded (.refund 3 false) = escFunded := by
  have h := C2_flag_before_transfer escFunded 3 (by decide) (by decide)
    (by decide) (by decide) (by decide)
  have h1 := h.2.2.1 false (by rfl)
  have h2 := h.2.2.2.2.2 false (by rfl)
  exact ⟨h1.1, h1.2, h.2.1, h2.1, h2.2⟩

/-- C5: `deposit(value)` succeeds iff the caller equals the depositor,
the agreement is unfunded and unpaused, and the value is non-zero; on
success it sets `amount = value`, `isFunded = true`, adds the value to
the balance and emits `Deposited`; any failure is exactly one of
`OnlyDepositor`, `AlreadyFunded`, `EnforcedPause`, `InvalidAmount`.
After a success, a further `deposit` by the depositor always fails with
`AlreadyFunded`; a zero-value `deposit` never succeeds and, when the
caller/funding/pause guards pass, fails with `InvalidAmount`. -/
theorem C5_deposit_spec (s : Escrow) (sender v : Nat) :
    ((∃ out, step s (.deposit sender v) = .ok out) ↔
      (sender = s.depositor ∧ s.isFunded = false ∧ s.pausedFlag = false ∧
        v ≠ 0)) ∧
    (∀ out, step s (.deposit sender v) = .ok out →
      out.state = { s with amount := v, isFunded := true,
                           balance := s.balance + v } ∧
      out.events = [.deposited s.depositor v]) ∧
    (∀ e, step s (.deposit sender v) = .error e →
      e = .onlyDepositor ∨ e = .alreadyFunded ∨ e = .enforcedPause ∨
      e = .invalidAmount) ∧
    (∀ out, step s (.deposit sender v) = .ok out →
      ∀ w, step out.state (.deposit s.depositor w) =
        .error .alreadyFunded) ∧
    (sender = s.depositor → s.isFunded = false → s.pausedFlag = false →
      step s (.deposit sender 0) = .error .invalidAmount) ∧
    (∀ out, step s (.deposit sender 0) ≠ .ok out) := by
  simp only [step]
  split_ifs with h1 h2 h3 h4 <;> simp_all [step]

/-- Witness for C5 at the concrete escrow `esc0`: a first deposit of 5
by the depositor succeeds with the documented effects, and a zero-value
deposit fails with `InvalidAmount`. -/
theorem C5_deposit_spec_witness :
    step esc0 (.deposit 1 5) =
      .ok ⟨⟨1, 2, 3, 5, true, false, false, false, 1, 5⟩,
           [.deposited 1 5], []⟩ ∧
    step esc0 (.deposit 1 0) = .error .invalidAmount := by
  have h := C5_deposit_spec esc0 1 5
  exact ⟨rfl, h.2.2.2.2.1 rfl rfl rfl⟩

/-- C3 counterexample: the claim that the administrator is distinct from
all three escrow roles is false — for the constructed escrow (1,2,3) the
`Ownable` owner (the identity authorized for `pause`/`unpause`/
`emergencyWithdraw`) equals the depositor, and the depositor's `pause`
call indeed succeeds. -/
theorem C3_admin_distinct_counterexample :
    mkEscrow 1 2 3 = .ok (esc0, [.escrowCreated 1 2 3]) ∧
    esc0.owner = esc0.depositor ∧
    step esc0 (.pause 1) =
      .ok ⟨⟨1, 2, 3, 0, false, false, false, true, 1, 0⟩,
           [.pausedEv 1], []⟩ :=
  ⟨rfl, rfl, rfl⟩

/-- C3 amended: in every reachable state the administrator — the
`Ownable` owner, the sole identity whose `pause`/`unpause`/
`emergencyWithdraw` calls pass authorization, and the recipient of the
emergency sweep — equals the depositor; it is therefore distinct from
the beneficiary and the arbiter but never from the depositor. -/
theorem C3_administrator_is_depositor (s : Escrow) (h : Reach s) :
    s.owner = s.depositor ∧ s.owner ≠ s.beneficiary ∧
    s.owner ≠ s.arbiter ∧
    (∀ sender, sender ≠ s.owner →
      step s (.pause sender) = .error .ownableUnauthorizedAccount ∧
      step s (.unpause sender) = .error .ownableUnauthorizedAccount ∧
      ∀ tok, step s (.emergencyWithdraw sender tok) =
        .error .ownableUnauthorizedAccount) ∧
    (∀ tok out, step s (.emergencyWithdraw s.owner tok) = .ok out →
      out.transfers = [] ∨ out.transfers = [(s.owner, s.balance)]) := by
  obtain ⟨-, -, h3, -, -, -, hdb, hda, -⟩ := reach_inv h
  refine ⟨h3, ?_, ?_, ?_, ?_⟩
  · rw [h3]; exact hdb
  · rw [h3]; exact hda
  · intro sender hn
    exact ⟨by simp [step, hn], by simp [step, hn], fun tok => by simp [step, hn]⟩
  · intro tok out hs
    simp only [step, sendValue] at hs
    (repeat' split at hs) <;>
      (try simp only [Except.map] at hs) <;>
      (try injection hs with hs) <;>
      (try subst hs) <;> simp_all

/-- Witness for C3 (amended) at the concrete escrow `esc0`. -/
theorem C3_administrator_is_depositor_witness :
    esc0.owner = esc0.depositor ∧ esc0.owner ≠ esc0.beneficiary ∧
    esc0.owner ≠ esc0.arbiter := by
  have h := C3_administrator_is_depositor esc0 reach_esc0
  exact ⟨h.1, h.2.1, h.2.2.1⟩

/-- C4 counterexample: a depositor direct transfer is not equivalent to
`deposit()` — while paused, `receive` accepts 5 wei from the depositor
and funds the agreement, whereas `deposit` reverts with `EnforcedPause`;
and with zero value `receive` funds the agreement with `amount = 0`,
whereas `deposit` reverts with `InvalidAmount`. -/
theorem C4_receive_policy_counterexample :
    step escPaused (.receiveEth 1 5) =
      .ok ⟨⟨1, 2, 3, 5, true, false, false, true, 1, 5⟩,
           [.deposited 1 5], []⟩ ∧
    step escPaused (.deposit 1 5) = .error .enforcedPause ∧
    step esc0 (.receiveEth 1 0) =
      .ok ⟨⟨1, 2, 3, 0, true, false, false, false, 1, 0⟩,
           [.deposited 1 0], []⟩ ∧
    step esc0 (.deposit 1 0) = .error .invalidAmount :=
  ⟨rfl, rfl, rfl, rfl⟩

/-- C4 amended: the direct-transfer policy actually implemented is:
any transfer from a non-depositor reverts with
`OnlyDepositorCanSendETH`; a transfer from the depositor is always
accepted, bypassing the pause, zero-value and already-funded guards of
`deposit()` — when unfunded it sets `amount` to the transferred value
(possibly 0) and `isFunded = true` and emits `Deposited`, and when
already funded the value is accepted silently with `amount` and the
flags unchanged. -/
theorem C4_receive_policy (s : Escrow) (sender v : Nat) :
    (sender ≠ s.depositor →
      step s (.receiveEth sender v) = .error .onlyDepositorCanSendETH) ∧
    (sender = s.depositor → s.isFunded = false →
      step s (.receiveEth sender v) =
        .ok ⟨{ s with balance := s.balance + v, amount := v,
                      isFunded := true },
             [.deposited s.depositor v], []⟩) ∧
    (sender = s.depositor → s.isFunded = true →
      step s (.receiveEth sender v) =
        .ok ⟨{ s with balance := s.balance + v }, [], []⟩) :=
  ⟨fun hn => by simp [step, hn],
   fun he hf => by simp [step, he, hf],
   fun he hf => by simp [step, he, hf]⟩

/-- Witness for C4 (amended): a stranger's transfer to `esc0` is
rejected, and a depositor transfer to the funded `escFunded` is
accepted silently. -/
theorem C4_receive_policy_witness :
    step esc0 (.receiveEth 7 5) = .error .onlyDepositorCanSendETH ∧
    step escFunded (.receiveEth 1 2) =
      .ok ⟨{ escFunded with balance := escFunded.balance + 2 }, [], []⟩ := by
  have h1 := (C4_receive_policy esc0 7 5).1 (by decide)
  have h2 := (C4_receive_policy escFunded 1 2).2.2 (by decide) (by decide)
  exact ⟨h1, h2⟩

/-- C6: `pause`/`unpause` change only the `paused` flag; while paused,
the otherwise-valid `deposit`/`release`/`refund` calls fail with
`EnforcedPause` and `emergencyWithdraw` is permitted to the
administrator alone, sweeping the full balance to the administrator;
while unpaused `emergencyWithdraw` fails with `ExpectedPause`; and a
successful pause/unpause pair restores the state exactly, so every
operation behaves exactly as before the pair. -/
theorem C6_pause_gate (s : Escrow) :
    (∀ sender, exec s (.pause sender) = s ∨
      exec s (.pause sender) = { s with pausedFlag := true }) ∧
    (∀ sender, exec s (.unpause sender) = s ∨
      exec s (.unpause sender) = { s with pausedFlag := false }) ∧
    (s.pausedFlag = false →
      step s (.pause s.owner) =
        .ok ⟨{ s with pausedFlag := true }, [.pausedEv s.owner], []⟩) ∧
    (s.pausedFlag = true →
      step s (.unpause s.owner) =
        .ok ⟨{ s with pausedFlag := false }, [.unpausedEv s.owner], []⟩) ∧
    (s.pausedFlag = true →
      (∀ v, s.isFunded = false →
        step s (.deposit s.depositor v) = .error .enforcedPause) ∧
      (s.isFunded = true → s.isReleased = false → s.isRefunded = false →
        ∀ tok, step s (.release s.arbiter tok) = .error .enforcedPause ∧
          step s (.refund s.arbiter tok) = .error .enforcedPause) ∧
      (step s (.emergencyWithdraw s.owner true) =
        if s.balance = 0 then .ok ⟨s, [], []⟩
        else .ok ⟨{ s with balance := 0 }, [], [(s.owner, s.balance)]⟩) ∧
      (∀ sender, sender ≠ s.owner → ∀ tok,
        step s (.emergencyWithdraw sender tok) =
          .error .ownableUnauthorizedAccount)) ∧
    (s.pausedFlag = false → ∀ tok,
      step s (.emergencyWithdraw s.owner tok) = .error .expectedPause) ∧
    (s.pausedFlag = false →
      exec (exec s (.pause s.owner)) (.unpause s.owner) = s ∧
      ∀ op, step (exec (exec s (.pause s.owner)) (.unpause s.owner)) op =
        step s op) := by
  refine ⟨?_, ?_, ?_, ?_, ?_, ?_, ?_⟩
  · intro sender
    by_cases h1 : sender = s.owner
    · by_cases h2 : s.pausedFlag = true
      · exact Or.inl (exec_of_error (show step s (.pause sender) =
          .error .enforcedPause by simp [step, h1, h2]))
      · refine Or.inr (exec_of_ok (show step s (.pause sender) =
          .ok ⟨{ s with pausedFlag := true }, [.pausedEv sender], []⟩
          by simp [step, h1, h2]))
    · exact Or.inl (exec_of_error (show step s (.pause sender) =
        .error .ownableUnauthorizedAccount by simp [step, h1]))
  · intro sender
    by_cases h1 : sender = s.owner
    · by_cases h2 : s.pausedFlag = true
      · refine Or.inr (exec_of_ok (show step s (.unpause sender) =
          .ok ⟨{ s with pausedFlag := false }, [.unpausedEv sender], []⟩
          by simp [step, h1, h2]))
      · exact Or.inl (exec_of_error (show step s (.unpause sender) =
          .error .expectedPause by simp [step, h1, h2]))
    · exact Or.inl (exec_of_error (show step s (.unpause sender) =
        .error .ownableUnauthorizedAccount by simp [step, h1]))
  · intro hp; simp [step, hp]
  · intro hp; simp [step, hp]
  · intro hp
    refine ⟨fun v hf => by simp [step, hp, hf], ?_, ?_, ?_⟩
    · intro hf hr hrf tok
      exact ⟨by simp [step, hp, hf, hr, hrf], by simp [step, hp, hf, hr, hrf]⟩
    · by_cases hb : s.balance = 0
      · simp [step, hp, hb]
      · simp [step, hp, hb, sendValue, Except.map, Nat.sub_self]
    · intro sender hn tok; simp [step, hn]
  · intro hp tok; simp [step, hp]
  · intro hp
    have hpause : exec s (.pause s.owner) = { s with pausedFlag := true } :=
      exec_of_ok (show step s (.pause s.owner) =
        .ok ⟨{ s with pausedFlag := true }, [.pausedEv s.owner], []⟩
        by simp [step, hp])
    have hun : exec (exec s (.pause s.owner)) (.unpause s.owner) = s := by
      rw [hpause]
      have h2 : exec { s with pausedFlag := true } (.unpause s.owner) =
          { s with pausedFlag := false } :=
        exec_of_ok (show step { s with pausedFlag := true }
            (.unpause s.owner) =
          .ok ⟨{ s with pausedFlag := false }, [.unpausedEv s.owner], []⟩
          by simp [step])
      rw [h2]; exact set_paused_false_eta s hp
    exact ⟨hun, fun op => by rw [hun]⟩

/-- Witness for C6 at concrete states: pausing blocks deposit on
`escPaused` and release/refund on `escFundedPaused`; the emergency sweep
on the funded paused escrow pays the full balance 5 to the
administrator; `emergencyWithdraw` on the unpaused `esc0` fails with
`ExpectedPause`; and pause-then-unpause on `esc0` restores it exactly. -/
theorem C6_pause_gate_witness :
    step escPaused (.deposit 1 9) = .error .enforcedPause ∧
    step escFundedPaused (.release 3 true) = .error .enforcedPause ∧
    step escFundedPaused (.refund 3 true) = .error .enforcedPause ∧
    step escFundedPaused (.emergencyWithdraw 1 true) =
      .ok ⟨{ escFundedPaused with balance := 0 }, [], [(1, 5)]⟩ ∧
    step esc0 (.emergencyWithdraw 1 true) = .error .expectedPause ∧
    exec (exec esc0 (.pause 1)) (.unpause 1) = esc0 := by
  have h1 := ((C6_pause_gate escPaused).2.2.2.2.1 rfl).1 9 rfl
  have h2 := ((C6_pause_gate escFundedPaused).2.2.2.2.1 rfl).2.1
    rfl rfl rfl true
  have h4 := ((C6_pause_gate escFundedPaused).2.2.2.2.1 rfl).2.2.1
  have h5 := (C6_pause_gate esc0).2.2.2.2.2.1 rfl true
  have h6 := ((C6_pause_gate esc0).2.2.2.2.2.2 rfl).1
  exact ⟨h1, h2.1, h2.2, by simpa using h4, h5, h6⟩

/-- Once funded, an agreement stays funded across any call sequence. -/
theorem run_funded_mono (s : Escrow) (ops : List Op)
    (h : s.isFunded = true) : (run s ops).isFunded = true := by
  induction ops generalizing s with
  | nil => simpa [run] using h
  | cons op rest ih =>
      simp only [run, List.foldl_cons] at ih ⊢
      exact ih (exec s op) (exec_funded_mono s op h)

/-- C10: the direct-transfer entry point (`receive`) bypasses the guards
of `deposit()`: a depositor transfer is always accepted — even while
paused and even with zero value; when the agreement is unfunded it sets
`isFunded = true` and `amount` to the transferred value (possibly 0) and
emits `Deposited`; when already funded the value is accepted silently
with `amount` unchanged; and once `isFunded` holds it holds forever, so
every later `deposit()` call by the depositor fails with
`AlreadyFunded`. -/
theorem C10_receive_bypasses_guards (s : Escrow) (v : Nat) :
    (∃ out, step s (.receiveEth s.depositor v) = .ok out) ∧
    (s.isFunded = false →
      step s (.receiveEth s.depositor v) =
        .ok ⟨{ s with balance := s.balance + v, amount := v,
                      isFunded := true },
             [.deposited s.depositor v], []⟩) ∧
    (s.isFunded = true →
      step s (.receiveEth s.depositor v) =
        .ok ⟨{ s with balance := s.balance + v }, [], []⟩) ∧
    (∀ s2 : Escrow, s2.isFunded = true → ∀ ops w,
      step (run s2 ops) (.deposit (run s2 ops).depositor w) =
        .error .alreadyFunded) := by
  refine ⟨?_, fun hf => by simp [step, hf], fun hf => by simp [step, hf],
          ?_⟩
  · cases hf : s.isFunded
    · exact ⟨⟨{ s with balance := s.balance + v, amount := v,
                       isFunded := true },
              [.deposited s.depositor v], []⟩, by simp [step, hf]⟩
    · exact ⟨⟨{ s with balance := s.balance + v }, [], []⟩,
             by simp [step, hf]⟩
  · intro s2 hf2 ops w
    have hfr := run_funded_mono s2 ops hf2
    simp [step, hfr]

/-- Witness for C10: a zero-value depositor transfer to the paused,
unfunded `escPaused` funds it with `amount = 0`, and a later `deposit`
on the funded `escFunded` fails with `AlreadyFunded`. -/
theorem C10_receive_bypasses_guards_witness :
    step escPaused (.receiveEth 1 0) =
      .ok ⟨⟨1, 2, 3, 0, true, false, false, true, 1, 0⟩,
           [.deposited 1 0], []⟩ ∧
    step escFunded (.deposit 1 9) = .error .alreadyFunded := by
  have h1 := (C10_receive_bypasses_guards escPaused 0).2.1 rfl
  have h2 := (C10_receive_bypasses_guards escPaused 0).2.2.2
    escFunded rfl [] 9
  exact ⟨h1, h2⟩

/-! ## Factory lemmas -/

/-- Characterization of a successful `TrustEscrow` constructor call. -/
theorem mkEscrow_ok_out (d b a : Nat) (pr : Escrow × List Event)
    (h : mkEscrow d b a = .ok pr) :
    d ≠ 0 ∧ b ≠ 0 ∧ a ≠ 0 ∧ b ≠ a ∧ d ≠ b ∧ d ≠ a ∧
    pr = ({ depositor := d, beneficiary := b, arbiter := a, amount := 0,
            isFunded := false, isReleased := false, isRefunded := false,
            pausedFlag := false, owner := d, balance := 0 },
          [.escrowCreated d b a]) := by
  unfold mkEscrow at h
  (repeat' split at h) <;> simp_all

/-- A constructor failure is `OwnableInvalidOwner` for a null depositor
and `InvalidAddress` otherwise. -/
theorem mkEscrow_err (d b a : Nat) (e : Err)
    (h : mkEscrow d b a = .error e) :
    (e = .ownableInvalidOwner ∧ d = 0) ∨ e = .invalidAddress := by
  unfold mkEscrow at h
  (repeat' split at h) <;> simp_all

/-- The constructor succeeds when all validation conditions hold. -/
theorem mkEscrow_succeeds (d b a : Nat) (hd : d ≠ 0) (hb : b ≠ 0)
    (ha : a ≠ 0) (hba : b ≠ a) (hdb : d ≠ b) (hda : d ≠ a) :
    mkEscrow d b a =
      .ok ({ depositor := d, beneficiary := b, arbiter := a, amount := 0,
             isFunded := false, isReleased := false, isRefunded := false,
             pausedFlag := false, owner := d, balance := 0 },
           [.escrowCreated d b a]) := by
  simp [mkEscrow, hd, hb, ha, hba, hdb, hda]

/-- Characterization of a successful internal `createEscrow`. -/
theorem createEscrow_ok (f : Factory) (sender b a t : Nat) (f1 : Factory)
    (addr : Nat) (h : createEscrow f sender b a t = .ok (f1, addr)) :
    sender ≠ 0 ∧ b ≠ 0 ∧ a ≠ 0 ∧ b ≠ a ∧ b ≠ sender ∧ a ≠ sender ∧
    addr = f.nextAddr ∧
    f1 = { f with
            escrows := f.escrows ++ [f.nextAddr],
            userEscrows := fun u =>
              if u = sender then f.userEscrows u ++ [f.nextAddr]
              else f.userEscrows u,
            escrowInfo := fun x =>
              if x = f.nextAddr then ⟨sender, b, a, t, true⟩
              else f.escrowInfo x,
            nextAddr := f.nextAddr + 1,
            log := f.log ++ [(sender, f.nextAddr)] } := by
  unfold createEscrow at h
  split_ifs at h with h1 h2 h3 h4 h5 <;> try exact Except.noConfusion h
  cases hmk : mkEscrow sender b a with
  | error e => rw [hmk] at h; exact Except.noConfusion h
  | ok pr =>
      rw [hmk] at h
      obtain ⟨hd, -, -, -, -, -, -⟩ := mkEscrow_ok_out sender b a pr hmk
      simp only [Except.ok.injEq, Prod.mk.injEq] at h
      exact ⟨hd, h1, h2, h3, h4, h5, h.2.symm, h.1.symm⟩

/-- With a non-null caller, any failure of the internal `createEscrow`
is `InvalidAddress`. -/
theorem createEscrow_err_invalid (f : Factory) (sender b a t : Nat)
    (hs : sender ≠ 0) (e : Err)
    (h : createEscrow f sender b a t = .error e) : e = .invalidAddress := by
  unfold createEscrow at h
  split_ifs at h with h1 h2 h3 h4 h5 <;>
    try (injection h with h; exact h.symm)
  cases hmk : mkEscrow sender b a with
  | error e2 =>
      rw [hmk] at h
      simp only [Except.error.injEq] at h
      subst h
      rcases mkEscrow_err sender b a e2 hmk with ⟨-, h0⟩ | hinv
      · exact absurd h0 hs
      · exact hinv
  | ok pr =>
      rw [hmk] at h
      simp at h

/-- The internal `createEscrow` succeeds when all validation conditions
hold. -/
theorem createEscrow_succeeds (f : Factory) (sender b a t : Nat)
    (hs : sender ≠ 0) (hb : b ≠ 0) (ha : a ≠ 0) (hba : b ≠ a)
    (hbs : b ≠ sender) (has : a ≠ sender) :
    createEscrow f sender b a t =
      .ok ({ f with
              escrows := f.escrows ++ [f.nextAddr],
              userEscrows := fun u =>
                if u = sender then f.userEscrows u ++ [f.nextAddr]
                else f.userEscrows u,
              escrowInfo := fun x =>
                if x = f.nextAddr then ⟨sender, b, a, t, true⟩
                else f.escrowInfo x,
              nextAddr := f.nextAddr + 1,
              log := f.log ++ [(sender, f.nextAddr)] }, f.nextAddr) := by
  unfold createEscrow
  rw [if_neg hb, if_neg ha, if_neg hba, if_neg hbs, if_neg has,
      mkEscrow_succeeds sender b a hs hb ha hba (Ne.symm hbs) (Ne.symm has)]

theorem finv_mkFactory (sender : Nat) : FInv (mkFactory sender) := by
  refine ⟨fun addr => by simp [mkFactory], fun addr h => by simp_all [mkFactory],
          by simp [mkFactory], fun u => by simp [mkFactory]⟩

theorem finv_createEscrow (f : Factory) (sender b a t : Nat)
    (f1 : Factory) (addr : Nat)
    (h : createEscrow f sender b a t = .ok (f1, addr)) (hi : FInv f) :
    FInv f1 := by
  obtain ⟨-, -, -, -, -, -, haddr, hf1⟩ :=
    createEscrow_ok f sender b a t f1 addr h
  obtain ⟨i1, i2, i3, i4⟩ := hi
  subst hf1
  refine ⟨?_, ?_, ?_, ?_⟩
  · intro x
    by_cases hx : x = f.nextAddr
    · subst hx; simp
    · simp only [List.mem_append, List.mem_singleton, if_neg hx]
      rw [i1 x]
      simp [hx]
  · intro x hx
    rcases List.mem_append.mp hx with hx1 | hx1
    · exact Nat.lt_succ_of_lt (i2 x hx1)
    · simp only [List.mem_singleton] at hx1
      subst hx1
      exact Nat.lt_succ_self _
  · simp [i3]
  · intro u
    by_cases hu : u = sender
    · subst hu
      simp [i4 u, List.filter_append]
    · simp only [if_neg hu]
      rw [i4 u]
      have hne : (sender == u) = false := by
        simp [Ne.symm hu]
      simp [List.filter_append, hne]

theorem createEscrowLoop_finv (sender t : Nat) :
    ∀ (pairs : List (Nat × Nat)) (f : Factory) (acc : List Nat)
      (f1 : Factory) (addrs : List Nat),
      createEscrowLoop f sender t pairs acc = .ok (f1, addrs) →
      FInv f →
      FInv f1 ∧ f1.escrows.length = f.escrows.length + pairs.length ∧
        addrs.length = acc.length + pairs.length := by
  intro pairs
  induction pairs with
  | nil =>
      intro f acc f1 addrs h hi
      unfold createEscrowLoop at h
      simp only [Except.ok.injEq, Prod.mk.injEq] at h
      obtain ⟨h1, h2⟩ := h
      subst h1; subst h2
      simp [hi]
  | cons p rest ih =>
      intro f acc f1 addrs h hi
      obtain ⟨b, a⟩ := p
      unfold createEscrowLoop at h
      cases hc : createEscrow f sender b a t with
      | error e => rw [hc] at h; exact Except.noConfusion h
      | ok pr =>
          obtain ⟨f2, addr⟩ := pr
          rw [hc] at h
          have hlen2 :
              f2.escrows.length = f.escrows.length + 1 := by
            obtain ⟨-, -, -, -, -, -, -, hf2⟩ :=
              createEscrow_ok f sender b a t f2 addr hc
            subst hf2; simp
          obtain ⟨ha1, ha2, ha3⟩ := ih f2 (acc ++ [addr]) f1 addrs h
            (finv_createEscrow f sender b a t f2 addr hc hi)
          refine ⟨ha1, ?_, ?_⟩
          · rw [ha2, hlen2]; simp; omega
          · rw [ha3]; simp; omega

theorem createEscrowLoop_length (sender t : Nat) :
    ∀ (pairs : List (Nat × Nat)) (f : Factory) (acc : List Nat)
      (f1 : Factory) (addrs : List Nat),
      createEscrowLoop f sender t pairs acc = .ok (f1, addrs) →
      f1.escrows.length = f.escrows.length + pairs.length ∧
        addrs.length = acc.length + pairs.length := by
  intro pairs
  induction pairs with
  | nil =>
      intro f acc f1 addrs h
      unfold createEscrowLoop at h
      simp only [Except.ok.injEq, Prod.mk.injEq] at h
      obtain ⟨h1, h2⟩ := h
      subst h1; subst h2
      simp
  | cons p rest ih =>
      intro f acc f1 addrs h
      obtain ⟨b, a⟩ := p
      unfold createEscrowLoop at h
      cases hc : createEscrow f sender b a t with
      | error e => rw [hc] at h; exact Except.noConfusion h
      | ok pr =>
          obtain ⟨f2, addr⟩ := pr
          rw [hc] at h
          have hlen2 : f2.escrows.length = f.escrows.length + 1 := by
            obtain ⟨-, -, -, -, -, -, -, hf2⟩ :=
              createEscrow_ok f sender b a t f2 addr hc
            subst hf2; simp
          obtain ⟨ha2, ha3⟩ := ih f2 (acc ++ [addr]) f1 addrs h
          refine ⟨?_, ?_⟩
          · rw [ha2, hlen2]; simp; omega
          · rw [ha3]; simp; omega

theorem createEscrowLoop_isOk (sender t : Nat) (hs : sender ≠ 0) :
    ∀ (pairs : List (Nat × Nat)) (f : Factory) (acc : List Nat),
      (∀ p ∈ pairs, p.1 ≠ 0 ∧ p.2 ≠ 0 ∧ p.1 ≠ p.2 ∧
        p.1 ≠ sender ∧ p.2 ≠ sender) →
      ∃ f1 addrs, createEscrowLoop f sender t pairs acc = .ok (f1, addrs) := by
  intro pairs
  induction pairs with
  | nil => intro f acc hv; exact ⟨f, acc, rfl⟩
  | cons p rest ih =>
      intro f acc hv
      obtain ⟨b, a⟩ := p
      obtain ⟨hb, ha, hba, hbs, has⟩ := hv (b, a) (by simp)
      have hrest : ∀ p ∈ rest, p.1 ≠ 0 ∧ p.2 ≠ 0 ∧ p.1 ≠ p.2 ∧
          p.1 ≠ sender ∧ p.2 ≠ sender :=
        fun p hp => hv p (by simp [hp])
      have hc := createEscrow_succeeds f sender b a t hs hb ha hba hbs has
      obtain ⟨f1, addrs, hloop⟩ := ih _ (acc ++ [f.nextAddr]) hrest
      refine ⟨f1, addrs, ?_⟩
      unfold createEscrowLoop
      rw [hc]
      exact hloop

theorem finv_execF (f : Factory) (op : FOp) (hi : FInv f) :
    FInv (execF f op) := by
  cases hc : stepF f op with
  | error e => unfold execF; rw [hc]; exact hi
  | ok f1 =>
      unfold execF; rw [hc]
      cases op with
      | create sender b a t =>
          simp only [stepF, createEscrowExternal] at hc
          split_ifs at hc with hp
          · exact Except.noConfusion hc
          · cases hcr : createEscrow f sender b a t with
            | error e => rw [hcr] at hc; exact Except.noConfusion hc
            | ok pr =>
                obtain ⟨f2, addr⟩ := pr
                rw [hcr] at hc
                simp only [Except.map, Except.ok.injEq] at hc
                subst hc
                exact finv_createEscrow f sender b a t f2 addr hcr hi
      | createMany sender bens arbs t =>
          simp only [stepF, createMultipleEscrows] at hc
          split_ifs at hc with hp hlm hl0 hl10
          any_goals exact Except.noConfusion hc
          cases hcr : createEscrowLoop f sender t (bens.zip arbs) [] with
          | error e => rw [hcr] at hc; exact Except.noConfusion hc
          | ok pr =>
              obtain ⟨f2, addrs⟩ := pr
              rw [hcr] at hc
              simp only [Except.map, Except.ok.injEq] at hc
              subst hc
              exact (createEscrowLoop_finv sender t (bens.zip arbs) f []
                f2 addrs hcr hi).1
      | fpause sender =>
          simp only [stepF] at hc
          split_ifs at hc with h1 h2 <;> try exact Except.noConfusion hc
          simp only [Except.ok.injEq] at hc
          subst hc
          exact hi
      | funpause sender =>
          simp only [stepF] at hc
          split_ifs at hc with h1 h2 <;> try exact Except.noConfusion hc
          simp only [Except.ok.injEq] at hc
          subst hc
          exact hi

theorem freach_finv {f : Factory} (h : FReach f) : FInv f := by
  induction h with
  | init sender => exact finv_mkFactory sender
  | next f op _ ih => exact finv_execF f op ih

/-- C7 counterexample: on a paused factory, creation fails with
`EnforcedPause` even for pairwise-distinct, non-null identities, so the
claimed "succeeds if and only if the identities are valid, failing with
`InvalidAddress` otherwise" does not hold unconditionally. -/
theorem C7_create_validation_counterexample :
    createEscrowExternal fPaused 1 2 3 0 = .error .enforcedPause ∧
    ((1 : Nat) ≠ 0 ∧ (2 : Nat) ≠ 0 ∧ (3 : Nat) ≠ 0 ∧
     (1 : Nat) ≠ 2 ∧ (1 : Nat) ≠ 3 ∧ (2 : Nat) ≠ 3) :=
  ⟨rfl, by decide⟩

/-- C7 amended: while the factory is not paused and the caller is a
non-null identity, `createEscrow` (external path) succeeds iff the
caller (who becomes depositor), the beneficiary and the arbiter are
pairwise distinct and non-null, and any failure is `InvalidAddress`;
every newly constructed agreement starts with `amount = 0` and
`isFunded = isReleased = isRefunded = false`, with the caller as
depositor, and the three role identities are immutable under every
escrow operation.  (While paused, creation instead fails with
`EnforcedPause` regardless of argument validity.) -/
theorem C7_create_validation (f : Factory) (sender b a t : Nat)
    (hp : f.pausedFlag = false) (hs : sender ≠ 0) :
    ((∃ r, createEscrowExternal f sender b a t = .ok r) ↔
      (sender ≠ 0 ∧ b ≠ 0 ∧ a ≠ 0 ∧ sender ≠ b ∧ sender ≠ a ∧ b ≠ a)) ∧
    (∀ e, createEscrowExternal f sender b a t = .error e →
      e = .invalidAddress) ∧
    (∀ s0 evs, mkEscrow sender b a = .ok (s0, evs) →
      s0.depositor = sender ∧ s0.beneficiary = b ∧ s0.arbiter = a ∧
      s0.amount = 0 ∧ s0.isFunded = false ∧ s0.isReleased = false ∧
      s0.isRefunded = false) ∧
    (∀ (s0 : Escrow) (op : Op),
      (exec s0 op).depositor = s0.depositor ∧
      (exec s0 op).beneficiary = s0.beneficiary ∧
      (exec s0 op).arbiter = s0.arbiter) := by
  refine ⟨⟨?_, ?_⟩, ?_, ?_, ?_⟩
  · rintro ⟨r, hr⟩
    obtain ⟨f1, addr⟩ := r
    simp only [createEscrowExternal, hp] at hr
    obtain ⟨h0, hb, ha, hba, hbs, has, -, -⟩ :=
      createEscrow_ok f sender b a t f1 addr hr
    exact ⟨h0, hb, ha, Ne.symm hbs, Ne.symm has, hba⟩
  · rintro ⟨h0, hb, ha, hsb, hsa, hba⟩
    have hc := createEscrow_succeeds f sender b a t h0 hb ha hba
      (Ne.symm hsb) (Ne.symm hsa)
    have he : createEscrowExternal f sender b a t =
        createEscrow f sender b a t := by
      simp [createEscrowExternal, hp]
    exact ⟨_, he.trans hc⟩
  · intro e he
    simp only [createEscrowExternal, hp] at he
    exact createEscrow_err_invalid f sender b a t hs e he
  · intro s0 evs hmk
    obtain ⟨-, -, -, -, -, -, hpr⟩ := mkEscrow_ok_out sender b a (s0, evs) hmk
    simp only [Prod.mk.injEq] at hpr
    rw [hpr.1]
    exact ⟨rfl, rfl, rfl, rfl, rfl, rfl, rfl⟩
  · intro s0 op
    exact ⟨(exec_roles s0 op).1, (exec_roles s0 op).2.1,
           (exec_roles s0 op).2.2.1⟩

/-- Witness for C7 (amended) on a fresh unpaused factory: creation with
valid identities (4, 5, 6) succeeds, and creation with a null
beneficiary fails with `InvalidAddress`. -/
theorem C7_create_validation_witness :
    (createEscrowExternal (mkFactory 9) 4 5 6 0).isOk = true ∧
    createEscrowExternal (mkFactory 9) 4 0 6 0 =
      .error .invalidAddress := by
  have h := C7_create_validation (mkFactory 9) 4 5 6 0 rfl (by decide)
  obtain ⟨r, hr⟩ := h.1.mpr (by decide)
  exact ⟨by rw [hr]; rfl, rfl⟩

/-- C8 counterexample: on a paused factory a batch of one fully valid
pair does not succeed (and a mismatched batch does not fail with
`ArraysLengthMismatch`): both revert with `EnforcedPause`, so the
claimed behaviour does not hold unconditionally. -/
theorem C8_batch_creation_counterexample :
    createMultipleEscrows fPaused 1 [2] [3] 0 = .error .enforcedPause ∧
    createMultipleEscrows fPaused 1 [2] [3, 4] 0 =
      .error .enforcedPause :=
  ⟨rfl, rfl⟩

/-- C8 amended: on an unpaused factory, `createMultipleEscrows` fails
with `ArraysLengthMismatch` for different lengths, `EmptyArrays` for
empty arrays, `TooManyEscrows` for more than 10 pairs (in particular
11); a success implies 1–10 pairs and appends exactly that many registry
entries, returning that many addresses; a batch of 1–10 valid pairs from
a non-null caller succeeds; and any failure leaves the factory state
completely unchanged (atomicity).  (While paused every batch call fails
with `EnforcedPause` instead.) -/
theorem C8_batch_creation (f : Factory) (sender t : Nat)
    (bens arbs : List Nat) (hp : f.pausedFlag = false) :
    (bens.length ≠ arbs.length →
      createMultipleEscrows f sender bens arbs t =
        .error .arraysLengthMismatch) ∧
    (bens = [] → arbs = [] →
      createMultipleEscrows f sender bens arbs t = .error .emptyArrays) ∧
    (bens.length = arbs.length → bens.length > 10 →
      createMultipleEscrows f sender bens arbs t =
        .error .tooManyEscrows) ∧
    (∀ f1 addrs,
      createMultipleEscrows f sender bens arbs t = .ok (f1, addrs) →
      1 ≤ bens.length ∧ bens.length ≤ 10 ∧
      f1.escrows.length = f.escrows.length + bens.length ∧
      addrs.length = bens.length) ∧
    (bens.length = arbs.length → 1 ≤ bens.length → bens.length ≤ 10 →
      sender ≠ 0 →
      (∀ p ∈ bens.zip arbs, p.1 ≠ 0 ∧ p.2 ≠ 0 ∧ p.1 ≠ p.2 ∧
        p.1 ≠ sender ∧ p.2 ≠ sender) →
      (createMultipleEscrows f sender bens arbs t).isOk = true) ∧
    (∀ e, createMultipleEscrows f sender bens arbs t = .error e →
      execF f (.createMany sender bens arbs t) = f) := by
  refine ⟨?_, ?_, ?_, ?_, ?_, ?_⟩
  · intro hne; simp [createMultipleEscrows, hp, hne]
  · intro h1 h2; subst h1; subst h2; simp [createMultipleEscrows, hp]
  · intro heq hgt
    unfold createMultipleEscrows
    rw [if_neg (by simp [hp]), if_neg (by omega), if_neg (by omega),
        if_pos (by omega)]
  · intro f1 addrs h
    unfold createMultipleEscrows at h
    split_ifs at h with h1 h2 h3 <;> try exact Except.noConfusion h
    obtain ⟨hlen, haddrs⟩ :=
      createEscrowLoop_length sender t (bens.zip arbs) f [] f1 addrs h
    have hz : (bens.zip arbs).length = bens.length := by
      simp only [List.length_zip]
      omega
    refine ⟨by omega, by omega, ?_, ?_⟩
    · rw [hlen, hz]
    · rw [haddrs, hz]; simp
  · intro heq hge1 hle10 hs0 hv
    have h1 : ¬bens.length ≠ arbs.length := by omega
    have h2 : ¬bens.length = 0 := by omega
    have h3 : ¬bens.length > 10 := by omega
    obtain ⟨f1, addrs, hloop⟩ :=
      createEscrowLoop_isOk sender t hs0 (bens.zip arbs) f [] hv
    unfold createMultipleEscrows
    rw [if_neg (by simp [hp]), if_neg h1, if_neg h2, if_neg h3, hloop]
    rfl
  · intro e he
    simp only [execF, stepF, he, Except.map]

/-- Witness for C8 (amended) on a fresh unpaused factory: empty arrays,
mismatched arrays and 11 entries revert with the documented errors, and
one valid pair succeeds. -/
theorem C8_batch_creation_witness :
    createMultipleEscrows (mkFactory 9) 4 [] [] 0 =
      .error .emptyArrays ∧
    createMultipleEscrows (mkFactory 9) 4 [5] [6, 7] 0 =
      .error .arraysLengthMismatch ∧
    createMultipleEscrows (mkFactory 9) 4 (List.replicate 11 5)
      (List.replicate 11 6) 0 = .error .tooManyEscrows ∧
    (createMultipleEscrows (mkFactory 9) 4 [5] [6] 0).isOk = true := by
  have h1 := (C8_batch_creation (mkFactory 9) 4 0 [] [] rfl).2.1 rfl rfl
  have h2 := (C8_batch_creation (mkFactory 9) 4 0 [5] [6, 7] rfl).1
    (by decide)
  have h3 := (C8_batch_creation (mkFactory 9) 4 0 (List.replicate 11 5)
    (List.replicate 11 6) rfl).2.2.1 (by decide) (by decide)
  have h4 := (C8_batch_creation (mkFactory 9) 4 0 [5] [6] rfl).2.2.2.2.1
    rfl (by decide) (by decide) (by decide) (by decide)
  exact ⟨h1, h2, h3, h4⟩

/-- C9: in every reachable factory state, every address in the
per-creator index is also in the global sequence with `exists = true`
metadata; addresses outside the global sequence have `exists = false`;
on such addresses `getEscrowInfo` fails with `EscrowDoesNotExist` while
`isValidEscrow` returns `false` (it is a total function); after N
creations the count equals N (the length of the creation history), and
`getUserEscrows c` lists exactly the agreements created by `c`, in
creation order. -/
theorem C9_registry_invariants (f : Factory) (h : FReach f) :
    (∀ u addr, addr ∈ getUserEscrows f u →
      addr ∈ getAllEscrows f ∧ (f.escrowInfo addr).exists_ = true) ∧
    (∀ addr, addr ∉ getAllEscrows f →
      (f.escrowInfo addr).exists_ = false) ∧
    (∀ addr, (f.escrowInfo addr).exists_ = false →
      getEscrowInfo f addr = .error .escrowDoesNotExist ∧
      isValidEscrow f addr = false) ∧
    getEscrowCount f = f.log.length ∧
    (∀ u, getUserEscrows f u =
      (f.log.filter (fun p => p.1 == u)).map Prod.snd) := by
  obtain ⟨i1, i2, i3, i4⟩ := freach_finv h
  refine ⟨?_, ?_, ?_, ?_, ?_⟩
  · intro u addr hmem
    simp only [getUserEscrows] at hmem
    rw [i4 u] at hmem
    obtain ⟨p, hp, hps⟩ := List.mem_map.mp hmem
    have hpl : p ∈ f.log := (List.mem_filter.mp hp).1
    have hmem2 : addr ∈ f.escrows := by
      rw [i3]
      exact List.mem_map.mpr ⟨p, hpl, hps⟩
    exact ⟨hmem2, (i1 addr).mpr hmem2⟩
  · intro addr hn
    cases hx : (f.escrowInfo addr).exists_
    · rfl
    · exact absurd ((i1 addr).mp hx) hn
  · intro addr hx
    exact ⟨by simp [getEscrowInfo, hx], by simp [isValidEscrow, hx]⟩
  · simp [getEscrowCount, i3]
  · exact fun u => i4 u

/-- Witness for C9 at the concrete one-entry factory `fOne`: the count
is 1, creator 4's index lists exactly the one agreement (address 1),
and the unregistered address 2 has no metadata, failing `getEscrowInfo`
and returning `false` from `isValidEscrow`. -/
theorem C9_registry_invariants_witness :
    getEscrowCount fOne = 1 ∧
    getUserEscrows fOne 4 = [1] ∧
    isValidEscrow fOne 1 = true ∧
    isValidEscrow fOne 2 = false ∧
    getEscrowInfo fOne 2 = .error .escrowDoesNotExist := by
  have h := C9_registry_invariants fOne
    (FReach.next (mkFactory 9) (.create 4 5 6 0) (FReach.init 9))
  refine ⟨h.2.2.2.1.trans rfl, (h.2.2.2.2 4).trans rfl, rfl, ?_, ?_⟩
  · exact (h.2.2.1 2 rfl).2
  · exact (h.2.2.1 2 rfl).1

end TrustEscrow
